import Mathlib

/-!
Verification of the APK Finder indexing-and-retrieval subsystem.

This file shallowly embeds the server-side logic of the repository
(`server/src/redis_client.py`, `server/src/scanner.py`, `server/src/api.py`,
`server/src/smb_client.py`, `shared/utils.py`, `shared/models.py`) into Lean
and proves or refutes the frozen behavioural claims about it.

Modelling conventions:
* Python strings are Lean `String`s; Python's substring test `a in b` is
  `strContains b a` (list-infix containment of the character lists).
* Python `datetime` values are modelled as `Nat` timestamps (only their
  total order and equality matter to the claims).
* The Redis store is modelled as a structure of total functions from
  `(server, directory)` keys to the stored values; `hset` is a pointwise
  functional update, `hget` of an absent key yields the Python-level
  default observed by the code (`[]` record list / `None` meta).
* The remote SMB share is a finite tree of named files and directories.
* All embedded operations are total functions; Python code paths that
  swallow exceptions (`try/except` returning a default) are embedded as
  the corresponding total branch.
-/

/-! ## String helpers (embedding `str.lower`, `str.strip`, `str.split`, `in`) -/

/-- Python `s.lower()` (ASCII-adequate: `Char.toLower` per character). -/
def strLower (s : String) : String := ⟨s.toList.map Char.toLower⟩

/-- Python `needle in hay` substring containment. -/
def strContains (hay needle : String) : Bool :=
  decide (needle.toList <:+: hay.toList)

/-- Python `s.strip()`: drop whitespace from both ends. -/
def strTrim (s : String) : String :=
  ⟨((s.toList.dropWhile Char.isWhitespace).reverse.dropWhile Char.isWhitespace).reverse⟩

/-- Python `s.split("|")`: split on every pipe character, keeping empty pieces. -/
def splitPipe (s : String) : List String :=
  (s.toList.splitOn '|').map (fun cs => (⟨cs⟩ : String))

/-- Python `path.split("\\")` (used by the download endpoint to extract the
directory component of a relative path). -/
def pathParts (s : String) : List String :=
  (s.toList.splitOn '\\').map (fun cs => (⟨cs⟩ : String))

/-- Embeds `shared/utils.py` `is_apk_file`: `filename.lower().endswith('.apk')`. -/
def isApkFile (filename : String) : Bool :=
  ".apk".toList.isSuffixOf (strLower filename).toList

/-- Embeds `shared/utils.py` `extract_build_type`: `'release'` substring wins,
then `'debug'`, else `'unknown'`. -/
def extractBuildType (filename : String) : String :=
  let fl := strLower filename
  if strContains fl "release" then "release"
  else if strContains fl "debug" then "debug"
  else "unknown"

/-! ## Data model (embedding `shared/models.py` `APKFile`) -/

/-- Embeds the `APKFile` pydantic model.  `server_pfx` embeds the source field
named `server{-}prefix` (renamed only in Lean); `created_time` is a `Nat`
timestamp; `md5` is the optional content hash. -/
structure APKFile where
  relative_path : String
  file_name : String
  file_size : Nat
  created_time : Nat
  server_pfx : String
  build_type : String
  download_time : Nat := 0
  md5 : Option String := none
deriving DecidableEq, Repr

/-! ## Search filtering (embedding `RedisClient._filter_files`) -/

/-- Embeds `keywords = [k.strip().lower() for k in keyword.split("|") if k.strip()]`. -/
def parseKeywords (keyword : String) : List String :=
  (((splitPipe keyword).map strTrim).filter (fun k => k ≠ "")).map strLower

/-- Embeds `file_text = f"{file.file_name} {file.relative_path}".lower()`. -/
def fileText (f : APKFile) : String :=
  strLower (f.file_name ++ " " ++ f.relative_path)

/-- The per-record predicate of `_filter_files`: the build-type guard
(`combine` disables it) followed by the all-keywords guard. -/
def keepFile (keyword build_type : String) (f : APKFile) : Bool :=
  (build_type == "combine" || f.build_type == build_type) &&
  (parseKeywords keyword).all (fun kw => strContains (fileText f) kw)

/-- Embeds `RedisClient._filter_files` (the loop appends exactly the records
passing both guards, in input order). -/
def filterFiles (files : List APKFile) (keyword build_type : String) : List APKFile :=
  files.filter (keepFile keyword build_type)

/-- Embeds `filtered_files.sort(key=lambda x: x.created_time, reverse=True)`:
a stable sort, descending by `created_time`. -/
def sortByCreatedDesc (l : List APKFile) : List APKFile :=
  l.mergeSort (fun a b => decide (b.created_time ≤ a.created_time))

/-- Embeds the pure tail of `RedisClient.search_apk_files` on a gathered
snapshot: filter, sort descending by creation time, record the total, and
slice `[offset, offset+limit)`. -/
def searchCore (all_files : List APKFile) (keyword build_type : String)
    (limit offset : Nat) : List APKFile × Nat :=
  let filtered := filterFiles all_files keyword build_type
  let sorted := sortByCreatedDesc filtered
  ((sorted.drop offset).take limit, filtered.length)

/-! ## Catalog store availability and the search endpoint (for C2) -/

/-- The Redis connection as seen by `search_apk_files`: either every access
errors (`down`) or it serves a snapshot of `(server, directory, files)`
entries (`up`). -/
inductive RedisState where
  | down
  | up (entries : List (String × String × List APKFile))
deriving DecidableEq, Repr

/-- Embeds the gathering loop of `search_apk_files`: for each server to
search, every non-meta key's record list is appended. -/
def gatherFiles (entries : List (String × String × List APKFile))
    (servers : List String) : List APKFile :=
  (servers.map (fun s =>
    ((entries.filter (fun e => e.1 == s)).map (fun e => e.2.2)).flatten)).flatten

/-- Embeds `RedisClient.search_apk_files` including its blanket
`except: return [], 0` branch: when the store is down, the `keys()` call
raises and the method returns an empty page with total `0`. -/
def searchApkFiles (rs : RedisState) (servers : List String)
    (keyword build_type : String) (limit offset : Nat) : List APKFile × Nat :=
  match rs with
  | .down => ([], 0)
  | .up entries => searchCore (gatherFiles entries servers) keyword build_type limit offset

/-- Outcome of an API endpoint: a JSON success payload or an HTTP error status. -/
inductive ApiResult (α : Type) where
  | ok (code : Nat) (payload : α)
  | error (status : Nat)
deriving DecidableEq, Repr

/-- Embeds the `/api/search` endpoint body: it calls
`redis_client.search_apk_files` (which cannot raise — it returns `[], 0` on
any store failure) and wraps the result in a `code = 200` response; its
`except` branch (HTTP 500) is unreachable from store failures. -/
def apiSearch (rs : RedisState) (servers : List String)
    (keyword build_type : String) (limit offset : Nat) :
    ApiResult (Nat × List APKFile) :=
  let r := searchApkFiles rs servers keyword build_type limit offset
  .ok 200 (r.2, r.1)

/-! ## Catalog store state (embedding `RedisClient` get/set operations) -/

/-- Embeds the per-directory metadata dict written by the scanner.
`scan_directory` writes all three fields; `force_scan` writes a dict holding
only `subdir_count = -1`, modelled by `none` in the optional fields.
`subdir_count` is an `Int` because `-1` is the force-rescan sentinel. -/
structure DirMeta where
  subdir_count : Int
  last_scan : Option Nat := none
  files_count : Option Nat := none
deriving DecidableEq, Repr

/-- The Redis keyspace owned by the server: per `(server, directory)` key a
record list (hash field `files`), its `last_updated` stamp, and the
per-directory metadata (hash `apk_finder:server:meta`, field `directory`). -/
structure Store where
  files : String → String → List APKFile
  lastUpdated : String → String → Option Nat
  meta : String → String → Option DirMeta

/-- Embeds `RedisClient.get_apk_files` (an absent key deserialises to `[]`). -/
def getApkFiles (st : Store) (server directory : String) : List APKFile :=
  st.files server directory

/-- Embeds `RedisClient.set_apk_files`: the `files` field of the key is
overwritten wholesale with the new list and `last_updated` is stamped. -/
def setApkFiles (st : Store) (server directory : String)
    (fs : List APKFile) (now : Nat) : Store :=
  { st with
    files := fun s d => if s = server ∧ d = directory then fs else st.files s d,
    lastUpdated := fun s d =>
      if s = server ∧ d = directory then some now else st.lastUpdated s d }

/-- Embeds `RedisClient.set_directory_meta`. -/
def setDirectoryMeta (st : Store) (server directory : String) (m : DirMeta) : Store :=
  { st with
    meta := fun s d => if s = server ∧ d = directory then some m else st.meta s d }

/-- Embeds `cached_meta.get("subdir_count", -1) if cached_meta else -1`. -/
def getCachedCount (st : Store) (server directory : String) : Int :=
  match st.meta server directory with
  | some m => m.subdir_count
  | none => -1

/-- Embeds the mutation loop of `RedisClient.increment_download_count`: bump
`download_time` of the first record whose `relative_path` equals `file_path`,
then stop (`break`); later records are untouched. -/
def incFirst (files : List APKFile) (file_path : String) : List APKFile :=
  match files with
  | [] => []
  | f :: rest =>
    if f.relative_path = file_path then
      { f with download_time := f.download_time + 1 } :: rest
    else
      f :: incFirst rest file_path

/-- Embeds `RedisClient.increment_download_count`: read the key's record
list, bump the first match in place, and write the list back with
`set_apk_files`.  The surrounding `try/except` means the Python method never
raises; the embedding is accordingly a total function. -/
def incrementDownloadCount (st : Store) (server directory file_path : String)
    (now : Nat) : Store :=
  setApkFiles st server directory (incFirst (getApkFiles st server directory) file_path) now

/-- Embeds `path.split("\\")[1] if "\\" in path else ""` from the download
endpoint (the directory key used for the counter update). -/
def extractDownloadDirectory (path : String) : String :=
  if 1 < (pathParts path).length then (pathParts path).getD 1 "" else ""

/-- Embeds the catalog side effects of a successful `/api/download`
resolution: the source increments the download counter once (before
streaming) and performs no other catalog write — in particular
`update_file_md5` is never invoked anywhere in the server. -/
def downloadResolvedEffects (st : Store) (server path : String) (now : Nat) : Store :=
  incrementDownloadCount st server (extractDownloadDirectory path) path now

/-! ## Remote share filesystem and the scanner
(embedding `SMBClient` listing/walking and `APKScanner`) -/

/-- A remote filesystem entry: a file with its size and creation time, or a
directory with its children (in protocol listing order). -/
inductive FSEntry where
  | file (name : String) (size : Nat) (ctime : Nat)
  | dir (name : String) (children : List FSEntry)

/-- Embeds `SMBClient.list_directories`: the names of the immediate
subdirectory entries, in listing order. -/
def listDirectories (children : List FSEntry) : List String :=
  children.filterMap (fun e =>
    match e with
    | .dir n _ => some n
    | .file _ _ _ => none)

/-- The children of the first immediate subdirectory named `name`
(`[]` when absent, matching the source's error-to-empty behaviour). -/
def subdirChildren (children : List FSEntry) (name : String) : List FSEntry :=
  match children with
  | [] => []
  | .file _ _ _ :: rest => subdirChildren rest name
  | .dir n cs :: rest => if n = name then cs else subdirChildren rest name

/-- Embeds `SMBClient.get_directory_file_count`: despite its name it counts
the immediate subdirectories of `directory` (as an `Int`, to compare against
the `-1` sentinel). -/
def directorySubdirCount (root : List FSEntry) (directory : String) : Int :=
  ((listDirectories (subdirChildren root directory)).length : Int)

/-- The record built for one discovered APK file (`_scan_directory_recursive`):
fresh records always carry `download_time = 0` and `md5 = none`. -/
def mkApkRecord (pre entry_path name : String) (size ctime : Nat) : APKFile :=
  { relative_path := "\\" ++ entry_path
    file_name := name
    file_size := size
    created_time := ctime
    server_pfx := pre
    build_type := extractBuildType name
    download_time := 0
    md5 := none }

/-- Embeds `entry_path = f"{path}\\{file_name}" if path else file_name`. -/
def joinPath (path name : String) : String :=
  if path = "" then name else path ++ "\\" ++ name

/-- Embeds `SMBClient._scan_directory_recursive` for a single listed entry
under parent path `path`: directories are walked depth-first, APK-suffixed
files produce a record, other files are skipped. -/
def scanEntry (pre path : String) : FSEntry → List APKFile
  | .file n size ctime =>
    if isApkFile n then [mkApkRecord pre (joinPath path n) n size ctime] else []
  | .dir n children =>
    (children.attach.map (fun c => scanEntry pre (joinPath path n) c.1)).flatten
termination_by e => sizeOf e
decreasing_by
  have h := List.sizeOf_lt_of_mem c.2
  simp only [FSEntry.dir.sizeOf_spec]
  omega

/-- Embeds `SMBClient.scan_apk_files directory`: walk every entry of the
directory with parent path `directory`. -/
def scanApkFiles (pre directory : String) (children : List FSEntry) : List APKFile :=
  (children.map (fun c => scanEntry pre directory c)).flatten

/-- Embeds `APKScanner.scan_directory`: read the current immediate
subdirectory count and the cached one; if they are equal and the cached one
is not the `-1` sentinel, skip (no store write, no recursive walk, returned
flag `false`); otherwise walk the whole subtree, overwrite the record list,
and write fresh metadata (returned flag `true` records that the recursive
listing happened). -/
def scanDirectory (root : List FSEntry) (pre : String) (st : Store)
    (server directory : String) (now : Nat) : Store × Bool :=
  if directorySubdirCount root directory = getCachedCount st server directory ∧
      getCachedCount st server directory ≠ -1 then
    (st, false)
  else
    (setDirectoryMeta
      (setApkFiles st server directory
        (scanApkFiles pre directory (subdirChildren root directory)) now)
      server directory
      { subdir_count := directorySubdirCount root directory,
        last_scan := some now,
        files_count :=
          some (scanApkFiles pre directory (subdirChildren root directory)).length },
     true)

/-- One configured share: its Redis server name, its UNC path (the
`server_pfx` stamped on records), and the share root's children. -/
structure Share where
  name : String
  path : String
  root : List FSEntry

/-- One step of the `scan_server` loop: scan one directory, threading the
store and appending the directory's name to the walked list when the
recursive walk actually happened. -/
def scanDirStep (root : List FSEntry) (pre server : String) (now : Nat)
    (acc : Store × List String) (d : String) : Store × List String :=
  ((scanDirectory root pre acc.1 server d now).1,
   if (scanDirectory root pre acc.1 server d now).2 then acc.2 ++ [d] else acc.2)

/-- Embeds `APKScanner.scan_server`: list the top-level directories and run
`scan_directory` on each, in order; also returns the names of the
directories that were actually re-walked (the instrumented `true` flags). -/
def scanServer (sh : Share) (st : Store) (now : Nat) : Store × List String :=
  (listDirectories sh.root).foldl (scanDirStep sh.root sh.path sh.name now) (st, [])

/-- One step of the `scan_all_servers` loop: scan one share, threading the
store and tagging the walked directories with the share's name. -/
def scanShareStep (now : Nat) (acc : Store × List (String × String)) (sh : Share) :
    Store × List (String × String) :=
  ((scanServer sh acc.1 now).1,
   acc.2 ++ (scanServer sh acc.1 now).2.map (fun d => (sh.name, d)))

/-- Embeds `APKScanner.scan_all_servers` with its scan-in-progress guard:
if the `scanning` flag is set the call returns immediately (no store change,
nothing walked, nothing queued); otherwise every share is scanned in order
and the flag ends up cleared (`finally: self.scanning = False`).  The first
component of the result is the flag after the call. -/
def scanAllServers (shares : List Share) (scanning : Bool) (st : Store)
    (now : Nat) : Bool × Store × List (String × String) :=
  if scanning then
    (true, st, [])
  else
    (false, (shares.foldl (scanShareStep now) (st, [])).1,
      (shares.foldl (scanShareStep now) (st, [])).2)

/-- Embeds the metadata-reset loop of the force-scan operations: every listed
top-level directory's meta is overwritten with `{"subdir_count": -1}`. -/
def resetShareMeta (sh : Share) (st : Store) : Store :=
  (listDirectories sh.root).foldl
    (fun s d => setDirectoryMeta s sh.name d { subdir_count := -1 })
    st

/-- Embeds `APKScanner.force_scan_server`: reset every top-level directory's
cached count to the sentinel, then run the normal per-share scan. -/
def forceScanServer (sh : Share) (st : Store) (now : Nat) : Store × List String :=
  scanServer sh (resetShareMeta sh st) now

/-- Embeds `APKScanner.force_scan_all`: reset the cached counts of every
share's top-level directories, then run `scan_all_servers` (including its
scan-in-progress guard). -/
def forceScanAll (shares : List Share) (scanning : Bool) (st : Store)
    (now : Nat) : Bool × Store × List (String × String) :=
  scanAllServers shares scanning (shares.foldl (fun s sh => resetShareMeta sh s) st) now

/-! ## Download range handling (embedding the `/api/download` endpoint) -/

/-- The observable response of the download endpoint: HTTP status, the
`Content-Length` and `Content-Range` headers when set, and the streamed
body (bytes as `Nat`s). -/
structure DLResult where
  status : Nat
  contentLength : Option Nat
  contentRange : Option String
  body : List Nat
deriving DecidableEq, Repr

/-- The `Content-Range` value `bytes start-end/size` of a 206 response. -/
def contentRangeStr (s e n : Nat) : String :=
  "bytes " ++ toString s ++ "-" ++ toString e ++ "/" ++ toString n

/-- The non-range response: status 200, `Content-Length` only when the size
is known (otherwise chunked transfer), body the whole file from byte 0. -/
def fullDownloadResult (file : List Nat) (sizeKnown : Bool) : DLResult :=
  { status := 200
    contentLength := if sizeKnown then some file.length else none
    contentRange := none
    body := file }

/-- Embeds the range logic of `/api/download` for a syntactically well-formed
single-range header.  `range?` is the parsed `Range: bytes=start-end` header:
`none` when absent, otherwise the optional `start` (missing text defaults to
`0`) and optional `end` (missing text defaults to `size - 1`).  The source
enters the range branch only when the header is present AND the size is
known and positive; otherwise the range is ignored and the full file is
streamed.  An out-of-bounds or inverted range raises HTTP 416 with a
`Content-Range: bytes */size` hint; a valid one is served as a 206 with the
inclusive slice `[start, end]` (`download_file_range_stream` seeks to
`start` and reads `end - start + 1` bytes). -/
def downloadFile (file : List Nat) (sizeKnown : Bool)
    (range? : Option (Option Nat × Option Nat)) : DLResult :=
  match range? with
  | none => fullDownloadResult file sizeKnown
  | some (s?, e?) =>
    if sizeKnown ∧ 0 < file.length then
      if file.length ≤ s?.getD 0 ∨ file.length ≤ e?.getD (file.length - 1) ∨
          e?.getD (file.length - 1) < s?.getD 0 then
        { status := 416, contentLength := none,
          contentRange := some ("bytes */" ++ toString file.length), body := [] }
      else
        { status := 206,
          contentLength := some (e?.getD (file.length - 1) - s?.getD 0 + 1),
          contentRange :=
            some (contentRangeStr (s?.getD 0) (e?.getD (file.length - 1)) file.length),
          body := (file.drop (s?.getD 0)).take (e?.getD (file.length - 1) - s?.getD 0 + 1) }
    else
      fullDownloadResult file sizeKnown


/-! ## Auxiliary lemmas -/

theorem incFirst_of_no_match {l : List APKFile} {p : String}
    (h : ∀ g ∈ l, g.relative_path ≠ p) : incFirst l p = l := by
  induction l with
  | nil => rfl
  | cons f rest ih =>
    simp only [incFirst]
    rw [if_neg (h f (List.mem_cons_self f rest))]
    rw [ih (fun g hg => h g (List.mem_cons_of_mem f hg))]

theorem incFirst_append {l1 l2 : List APKFile} {f : APKFile} {p : String}
    (h1 : ∀ g ∈ l1, g.relative_path ≠ p) (hf : f.relative_path = p) :
    incFirst (l1 ++ f :: l2) p =
      l1 ++ { f with download_time := f.download_time + 1 } :: l2 := by
  induction l1 with
  | nil => simp [incFirst, hf]
  | cons g rest ih =>
    have hg : g.relative_path ≠ p := h1 g (List.mem_cons_self g rest)
    have ih' := ih (fun x hx => h1 x (List.mem_cons_of_mem g hx))
    simp only [List.cons_append, incFirst]
    rw [if_neg hg]
    simp only [List.append_eq]
    rw [ih']

theorem incFirst_map_md5 (l : List APKFile) (p : String) :
    (incFirst l p).map (fun f => f.md5) = l.map (fun f => f.md5) := by
  induction l with
  | nil => rfl
  | cons f rest ih =>
    simp only [incFirst]
    by_cases h : f.relative_path = p
    · simp [h]
    · simp [h, ih]

theorem flatten_chunks {α : Type} (k : Nat) :
    ∀ (n : Nat) (l : List α), l.length ≤ n * k →
      ((List.range n).map (fun i => (l.drop (i * k)).take k)).flatten = l := by
  intro n
  induction n with
  | zero =>
    intro l hl
    simp only [Nat.zero_mul, Nat.le_zero] at hl
    rw [List.length_eq_zero.mp hl]
    rfl
  | succ n ih =>
    intro l hl
    rw [Nat.succ_mul] at hl
    rw [List.range_succ_eq_map, List.map_cons, List.map_map, List.flatten_cons]
    have hstep : (List.range n).map ((fun i => (l.drop (i * k)).take k) ∘ Nat.succ) =
        (List.range n).map (fun i => ((l.drop k).drop (i * k)).take k) := by
      apply List.map_congr_left
      intro i _
      simp only [Function.comp_apply]
      rw [Nat.succ_mul, Nat.add_comm (i * k) k, ← List.drop_drop]
    rw [hstep, ih (l.drop k) (by rw [List.length_drop]; omega)]
    simp only [Nat.zero_mul, List.drop_zero]
    exact List.take_append_drop k l

theorem getCachedCount_setDirectoryMeta (st : Store) (server directory : String)
    (m : DirMeta) (s d : String) :
    getCachedCount (setDirectoryMeta st server directory m) s d =
      if s = server ∧ d = directory then m.subdir_count else getCachedCount st s d := by
  unfold getCachedCount setDirectoryMeta
  by_cases h : s = server ∧ d = directory <;> simp [h]

theorem getCachedCount_congr {st1 st2 : Store} {s d : String}
    (h : st1.meta s d = st2.meta s d) :
    getCachedCount st1 s d = getCachedCount st2 s d := by
  unfold getCachedCount
  rw [h]

theorem scanDirectory_skip_store (root : List FSEntry) (pre : String) (st : Store)
    (server directory : String) (now : Nat)
    (h : (scanDirectory root pre st server directory now).2 = false) :
    (scanDirectory root pre st server directory now).1 = st := by
  unfold scanDirectory at *
  by_cases hc : directorySubdirCount root directory = getCachedCount st server directory ∧
      getCachedCount st server directory ≠ -1
  · rw [if_pos hc]
  · rw [if_neg hc] at h
    simp at h

theorem scanDirectory_walks (root : List FSEntry) (pre : String) (st : Store)
    (server directory : String) (now : Nat)
    (h : getCachedCount st server directory = -1) :
    (scanDirectory root pre st server directory now).2 = true := by
  unfold scanDirectory
  rw [if_neg (fun hc => hc.2 h)]

theorem scanDirectory_meta_frame (root : List FSEntry) (pre : String) (st : Store)
    (server directory : String) (now : Nat) (s d : String)
    (h : ¬(s = server ∧ d = directory)) :
    ((scanDirectory root pre st server directory now).1).meta s d = st.meta s d := by
  unfold scanDirectory
  split
  · rfl
  · simp only [setDirectoryMeta, setApkFiles]
    rw [if_neg h]

theorem scanDirStep_walked_mem (root : List FSEntry) (pre server : String) (now : Nat)
    (acc : Store × List String) (d : String)
    (h : (scanDirectory root pre acc.1 server d now).2 = true) :
    d ∈ (scanDirStep root pre server now acc d).2 := by
  show d ∈ (if (scanDirectory root pre acc.1 server d now).2 = true
    then acc.2 ++ [d] else acc.2)
  rw [h]
  simp

theorem scanDirStep_acc_mem (root : List FSEntry) (pre server : String) (now : Nat)
    (acc : Store × List String) (d0 x : String)
    (h : x ∈ acc.2) : x ∈ (scanDirStep root pre server now acc d0).2 := by
  show x ∈ (if (scanDirectory root pre acc.1 server d0 now).2 = true
    then acc.2 ++ [d0] else acc.2)
  split
  · exact List.mem_append_left _ h
  · exact h

theorem scanDirStep_meta_frame (root : List FSEntry) (pre server : String) (now : Nat)
    (acc : Store × List String) (d0 : String) (s d : String)
    (h : ¬(s = server ∧ d = d0)) :
    ((scanDirStep root pre server now acc d0).1).meta s d = acc.1.meta s d :=
  scanDirectory_meta_frame root pre acc.1 server d0 now s d h

theorem scanDirStep_skip_store (root : List FSEntry) (pre server : String) (now : Nat)
    (acc : Store × List String) (d0 : String)
    (h : (scanDirectory root pre acc.1 server d0 now).2 = false) :
    (scanDirStep root pre server now acc d0).1 = acc.1 :=
  scanDirectory_skip_store root pre acc.1 server d0 now h

theorem scanDirStep_fold_mono (root : List FSEntry) (pre server : String) (now : Nat) :
    ∀ (dirs : List String) (acc : Store × List String) (x : String),
      x ∈ acc.2 → x ∈ (dirs.foldl (scanDirStep root pre server now) acc).2 := by
  intro dirs
  induction dirs with
  | nil => intro acc x hx; exact hx
  | cons d0 rest ih =>
    intro acc x hx
    rw [List.foldl_cons]
    exact ih _ x (scanDirStep_acc_mem root pre server now acc d0 x hx)

theorem scanDirStep_fold_walks (root : List FSEntry) (pre server : String) (now : Nat) :
    ∀ (dirs : List String) (acc : Store × List String) (d : String),
      d ∈ dirs → getCachedCount acc.1 server d = -1 →
      d ∈ (dirs.foldl (scanDirStep root pre server now) acc).2 := by
  intro dirs
  induction dirs with
  | nil => intro acc d hd; cases hd
  | cons d0 rest ih =>
    intro acc d hd hc
    rw [List.foldl_cons]
    by_cases hdd : d = d0
    · subst hdd
      exact scanDirStep_fold_mono root pre server now rest _ d
        (scanDirStep_walked_mem root pre server now acc d
          (scanDirectory_walks root pre acc.1 server d now hc))
    · have hd' : d ∈ rest := by
        rcases List.mem_cons.mp hd with h | h
        · exact absurd h hdd
        · exact h
      apply ih _ d hd'
      rw [getCachedCount_congr (scanDirStep_meta_frame root pre server now acc d0 server d
        (fun hcontra => hdd hcontra.2))]
      exact hc

theorem scanDirStep_fold_meta_frame (root : List FSEntry) (pre server : String) (now : Nat) :
    ∀ (dirs : List String) (acc : Store × List String) (s d : String),
      ((dirs.foldl (scanDirStep root pre server now) acc).1).meta s d = acc.1.meta s d ∨
      (s = server ∧ d ∈ (dirs.foldl (scanDirStep root pre server now) acc).2) := by
  intro dirs
  induction dirs with
  | nil => intro acc s d; left; rfl
  | cons d0 rest ih =>
    intro acc s d
    rw [List.foldl_cons]
    rcases ih (scanDirStep root pre server now acc d0) s d with h | h
    · by_cases hk : s = server ∧ d = d0
      · by_cases hw : (scanDirectory root pre acc.1 server d0 now).2 = true
        · right
          refine ⟨hk.1, ?_⟩
          apply scanDirStep_fold_mono
          rw [hk.2]
          exact scanDirStep_walked_mem root pre server now acc d0 hw
        · left
          rw [h, scanDirStep_skip_store root pre server now acc d0
            (Bool.eq_false_iff.mpr hw)]
      · left
        rw [h, scanDirStep_meta_frame root pre server now acc d0 s d hk]
    · right
      exact h

theorem resetFold_cached_preserved (sname : String) :
    ∀ (dirs : List String) (st : Store) (s d : String),
      getCachedCount st s d = -1 →
      getCachedCount
        (dirs.foldl (fun s2 d2 => setDirectoryMeta s2 sname d2 { subdir_count := -1 }) st)
        s d = -1 := by
  intro dirs
  induction dirs with
  | nil => intro st s d h; exact h
  | cons d0 rest ih =>
    intro st s d h
    rw [List.foldl_cons]
    apply ih
    rw [getCachedCount_setDirectoryMeta]
    split
    · rfl
    · exact h

theorem resetFold_cached (sname : String) :
    ∀ (dirs : List String) (st : Store) (d : String), d ∈ dirs →
      getCachedCount
        (dirs.foldl (fun s2 d2 => setDirectoryMeta s2 sname d2 { subdir_count := -1 }) st)
        sname d = -1 := by
  intro dirs
  induction dirs with
  | nil => intro st d h; cases h
  | cons d0 rest ih =>
    intro st d hd
    by_cases hdd : d ∈ rest
    · rw [List.foldl_cons]
      exact ih _ d hdd
    · have heq : d = d0 := by
        rcases List.mem_cons.mp hd with h | h
        · exact h
        · exact absurd h hdd
      subst heq
      rw [List.foldl_cons]
      apply resetFold_cached_preserved
      rw [getCachedCount_setDirectoryMeta]
      rw [if_pos ⟨rfl, rfl⟩]

theorem resetShareMeta_cached (sh : Share) (st : Store) (d : String)
    (hd : d ∈ listDirectories sh.root) :
    getCachedCount (resetShareMeta sh st) sh.name d = -1 :=
  resetFold_cached sh.name (listDirectories sh.root) st d hd

theorem resetShareMeta_cached_preserved (sh : Share) (st : Store) (s d : String)
    (h : getCachedCount st s d = -1) :
    getCachedCount (resetShareMeta sh st) s d = -1 :=
  resetFold_cached_preserved sh.name (listDirectories sh.root) st s d h

theorem resetAllFold_cached_preserved :
    ∀ (shares : List Share) (st : Store) (s d : String),
      getCachedCount st s d = -1 →
      getCachedCount (shares.foldl (fun s2 sh2 => resetShareMeta sh2 s2) st) s d = -1 := by
  intro shares
  induction shares with
  | nil => intro st s d h; exact h
  | cons sh0 rest ih =>
    intro st s d h
    rw [List.foldl_cons]
    exact ih _ s d (resetShareMeta_cached_preserved sh0 st s d h)

theorem resetAllFold_cached :
    ∀ (shares : List Share) (st : Store) (sh : Share), sh ∈ shares →
      ∀ d ∈ listDirectories sh.root,
        getCachedCount (shares.foldl (fun s2 sh2 => resetShareMeta sh2 s2) st) sh.name d
          = -1 := by
  intro shares
  induction shares with
  | nil => intro st sh h; cases h
  | cons sh0 rest ih =>
    intro st sh hsh d hd
    rw [List.foldl_cons]
    rcases List.mem_cons.mp hsh with he | hmem
    · subst he
      exact resetAllFold_cached_preserved rest _ sh.name d
        (resetShareMeta_cached sh st d hd)
    · exact ih _ sh hmem d hd

theorem scanShareStep_acc_mem (now : Nat) (acc : Store × List (String × String))
    (sh0 : Share) (x : String × String) (h : x ∈ acc.2) :
    x ∈ (scanShareStep now acc sh0).2 :=
  List.mem_append_left _ h

theorem scanShareStep_fold_mono (now : Nat) :
    ∀ (shares : List Share) (acc : Store × List (String × String)) (x : String × String),
      x ∈ acc.2 → x ∈ (shares.foldl (scanShareStep now) acc).2 := by
  intro shares
  induction shares with
  | nil => intro acc x hx; exact hx
  | cons sh0 rest ih =>
    intro acc x hx
    rw [List.foldl_cons]
    exact ih _ x (scanShareStep_acc_mem now acc sh0 x hx)

theorem scanShareStep_fold_walks (now : Nat) :
    ∀ (shares : List Share) (acc : Store × List (String × String)) (sh : Share) (d : String),
      sh ∈ shares → d ∈ listDirectories sh.root →
      (getCachedCount acc.1 sh.name d = -1 ∨ (sh.name, d) ∈ acc.2) →
      (sh.name, d) ∈ (shares.foldl (scanShareStep now) acc).2 := by
  intro shares
  induction shares with
  | nil => intro acc sh d h; cases h
  | cons sh0 rest ih =>
    intro acc sh d hsh hd hinv
    rw [List.foldl_cons]
    rcases List.mem_cons.mp hsh with he | hmem
    · subst he
      rcases hinv with hc | hin
      · have hw : d ∈ (scanServer sh acc.1 now).2 :=
          scanDirStep_fold_walks sh.root sh.path sh.name now
            (listDirectories sh.root) (acc.1, []) d hd hc
        apply scanShareStep_fold_mono
        exact List.mem_append_right _ (List.mem_map_of_mem _ hw)
      · apply scanShareStep_fold_mono
        exact scanShareStep_acc_mem now acc sh _ hin
    · apply ih _ sh d hmem hd
      rcases hinv with hc | hin
      · rcases scanDirStep_fold_meta_frame sh0.root sh0.path sh0.name now
          (listDirectories sh0.root) (acc.1, []) sh.name d with hfr | hwk
        · left
          have hmeta : ((scanShareStep now acc sh0).1).meta sh.name d
              = acc.1.meta sh.name d := hfr
          rw [getCachedCount_congr hmeta]
          exact hc
        · right
          rcases hwk with ⟨hs, hdw⟩
          have : (sh0.name, d) ∈ (scanShareStep now acc sh0).2 :=
            List.mem_append_right _ (List.mem_map_of_mem _ hdw)
          rw [hs]
          exact this
      · right
        exact scanShareStep_acc_mem now acc sh0 _ hin

/-! ## Claim theorems -/

/-- C2 counterexample: with the catalog store down (every access errors), a
concrete search invocation returns a *successful* response — HTTP code 200
with an empty item list and total 0 — not an explicit error response, because
`search_apk_files` swallows every store exception and returns `[], 0`.  This
refutes the claim as stated for the search endpoint. -/
theorem searchDown_isSuccess_counterexample :
    apiSearch RedisState.down ["server1"] "app" "release" 10 0 =
      ApiResult.ok 200 (0, []) := rfl

/-- C2 amended: for every search invocation made while the catalog store is
unavailable, the search endpoint returns a successful `code = 200` response
with an empty result set and `total = 0` (the store error is swallowed inside
`search_apk_files`); it never surfaces an error response. -/
theorem searchDown_returns_empty_success (servers : List String)
    (keyword build_type : String) (limit offset : Nat) :
    apiSearch RedisState.down servers keyword build_type limit offset =
      ApiResult.ok 200 (0, []) := rfl

/-- A concrete record used to refute C3's plain-concatenation reading: the
keyword term spans the boundary between file name and relative path. -/
def fC3 : APKFile :=
  { relative_path := "\\dir\\app.apk", file_name := "app.apk", file_size := 7,
    created_time := 3, server_pfx := "\\\\h\\s", build_type := "unknown" }

/-- C3 counterexample: the single parsed keyword term `apk\dir` IS a
case-insensitive substring of the plain concatenation
`file_name ++ relative_path` (`app.apk\dir\app.apk`), and the build filter is
`combine`, so the claim as stated predicts the record matches; but the code
matches against `file_name ++ " " ++ relative_path` (a space-joined text), in
which the term does not occur, so `_filter_files` rejects the record. -/
theorem filter_concatenation_counterexample :
    filterFiles [fC3] "apk\\dir" "combine" = [] ∧
    parseKeywords "apk\\dir" = ["apk\\dir"] ∧
    strContains (strLower (fC3.file_name ++ fC3.relative_path)) "apk\\dir" = true := by
  refine ⟨by decide, by decide, by decide⟩

/-- C3 amended: a record passes `_filter_files` if and only if it passes the
build filter (`combine` imposes no restriction, any other value must equal
`build_type` exactly) and every parsed keyword term (pipe-separated, stripped,
non-empty, lowercased) is a substring of the lowercased text
`file_name ++ " " ++ relative_path` — the file name and relative path joined
by a single space, not their plain concatenation. -/
theorem filter_mem_iff (files : List APKFile) (keyword build_type : String)
    (f : APKFile) :
    f ∈ filterFiles files keyword build_type ↔
      f ∈ files ∧ (build_type = "combine" ∨ f.build_type = build_type) ∧
        ∀ t ∈ parseKeywords keyword,
          strContains (strLower (f.file_name ++ " " ++ f.relative_path)) t = true := by
  simp only [filterFiles, List.mem_filter, keepFile, fileText, Bool.and_eq_true,
    Bool.or_eq_true, beq_iff_eq, List.all_eq_true, and_assoc]

/-- Witness for `filter_mem_iff` at a concrete record and keyword. -/
theorem filter_mem_iff_witness :
    fC3 ∈ filterFiles [fC3] "app" "combine" :=
  (filter_mem_iff [fC3] "app" "combine" fC3).mpr
    ⟨List.mem_singleton_self fC3, Or.inl rfl, by decide⟩

/-- C7: while the scan-in-progress flag is set, a second full-scan trigger is
a no-op: `scan_all_servers` returns immediately, no share is scanned, the
catalog store is untouched and nothing is queued — the returned state is
exactly the input store, the walked list is empty, and the flag is still
owned by the in-flight scan.  In the sequential embedding this is precisely
why two full-catalog scans never overlap: a trigger under the set flag
performs no scanning work at all. -/
theorem scanAllServers_noop_when_scanning (shares : List Share) (st : Store)
    (now : Nat) :
    scanAllServers shares true st now = (true, st, []) := rfl

/-- C5: one `scan_directory` step.  If the current immediate-subdirectory
count equals the cached one and the cached value is not the `-1` sentinel,
the scanner skips: the store is returned unchanged and the recursive-walk
flag is `false` (no deep listing, no catalog write).  Otherwise the walk flag
is `true`, the directory's record list is set to the full recursive walk of
its subtree (every APK-suffixed file), and fresh `DirectoryMeta` with the new
count, the new timestamp, and the file count is written, along with the
`last_updated` stamp of the record-list key. -/
theorem scanDirectory_change_detection (root : List FSEntry) (pre : String)
    (st : Store) (server directory : String) (now : Nat) :
    ((directorySubdirCount root directory = getCachedCount st server directory ∧
        getCachedCount st server directory ≠ -1) →
      scanDirectory root pre st server directory now = (st, false)) ∧
    (¬(directorySubdirCount root directory = getCachedCount st server directory ∧
        getCachedCount st server directory ≠ -1) →
      (scanDirectory root pre st server directory now).2 = true ∧
      ((scanDirectory root pre st server directory now).1).files server directory =
        scanApkFiles pre directory (subdirChildren root directory) ∧
      ((scanDirectory root pre st server directory now).1).meta server directory =
        some { subdir_count := directorySubdirCount root directory,
               last_scan := some now,
               files_count :=
                 some (scanApkFiles pre directory (subdirChildren root directory)).length } ∧
      ((scanDirectory root pre st server directory now).1).lastUpdated server directory =
        some now) := by
  constructor
  · intro h
    unfold scanDirectory
    rw [if_pos h]
  · intro h
    unfold scanDirectory
    rw [if_neg h]
    refine ⟨rfl, ?_, ?_, ?_⟩ <;> simp [setDirectoryMeta, setApkFiles]

/-- A share root used by scanner witnesses: one directory `D` with two
immediate subdirectories, one holding an APK. -/
def rootW : List FSEntry :=
  [.dir "D" [.dir "sub1" [.file "a-release.apk" 10 4], .dir "sub2" []]]

/-- A store whose cached count for `("srv", "D")` matches `rootW` (2
subdirectories), so an incremental scan of `D` skips. -/
def stMatch : Store :=
  { files := fun s d => if s = "srv" ∧ d = "D" then [fC3] else []
    lastUpdated := fun _ _ => some 3
    meta := fun s d =>
      if s = "srv" ∧ d = "D" then
        some { subdir_count := 2, last_scan := some 3, files_count := some 1 }
      else none }

/-- The everywhere-empty store. -/
def stEmpty : Store :=
  { files := fun _ _ => [], lastUpdated := fun _ _ => none, meta := fun _ _ => none }

/-- Witness for `scanDirectory_change_detection`: the skip branch at a store
whose cached count matches, and the walk branch at the empty store. -/
theorem scanDirectory_change_detection_witness :
    scanDirectory rootW "p" stMatch "srv" "D" 7 = (stMatch, false) ∧
    (scanDirectory rootW "p" stEmpty "srv" "D" 7).2 = true :=
  ⟨(scanDirectory_change_detection rootW "p" stMatch "srv" "D" 7).1 (by decide),
   ((scanDirectory_change_detection rootW "p" stEmpty "srv" "D" 7).2 (by decide)).1⟩

/-- C10: `increment_download_count` bumps `download_time` of exactly the
first record in the directory's list whose `relative_path` equals the target
path, by exactly 1, leaving that record's other fields, every other record,
every other `(server, directory)` key, and all directory metadata unchanged;
when no record matches, the stored record list is rewritten unchanged.  The
embedded operation is a total function, matching the source method's blanket
`try/except` (it never raises to its caller). -/
theorem increment_download_count_spec (st : Store) (server directory path : String)
    (now : Nat) :
    (∀ (l1 : List APKFile) (f : APKFile) (l2 : List APKFile),
        st.files server directory = l1 ++ f :: l2 →
        (∀ g ∈ l1, g.relative_path ≠ path) → f.relative_path = path →
        (incrementDownloadCount st server directory path now).files server directory =
          l1 ++ { f with download_time := f.download_time + 1 } :: l2) ∧
    ((∀ g ∈ st.files server directory, g.relative_path ≠ path) →
      (incrementDownloadCount st server directory path now).files server directory =
        st.files server directory) ∧
    (∀ s d, ¬(s = server ∧ d = directory) →
      (incrementDownloadCount st server directory path now).files s d =
        st.files s d) ∧
    (incrementDownloadCount st server directory path now).meta = st.meta := by
  refine ⟨?_, ?_, ?_, rfl⟩
  · intro l1 f l2 heq h1 hf
    simp only [incrementDownloadCount, setApkFiles, getApkFiles]
    rw [if_pos (by simp), heq, incFirst_append h1 hf]
  · intro h
    simp only [incrementDownloadCount, setApkFiles, getApkFiles]
    rw [if_pos (by simp), incFirst_of_no_match h]
  · intro s d h
    simp only [incrementDownloadCount, setApkFiles, getApkFiles]
    rw [if_neg h]

/-- Records for the counter witnesses: `gMatch` is the targeted record. -/
def g0 : APKFile :=
  { relative_path := "\\D\\a.apk", file_name := "a.apk", file_size := 1,
    created_time := 1, server_pfx := "p", build_type := "unknown" }

def gMatch : APKFile :=
  { relative_path := "\\D\\b-release.apk", file_name := "b-release.apk",
    file_size := 2, created_time := 2, server_pfx := "p", build_type := "release",
    download_time := 4, md5 := some "aa" }

def g2 : APKFile :=
  { relative_path := "\\D\\b-release.apk", file_name := "b-release.apk",
    file_size := 2, created_time := 2, server_pfx := "p", build_type := "release",
    download_time := 9, md5 := none }

/-- A store holding `[g0, gMatch, g2]` under `("srv", "D")`. -/
def stW10 : Store :=
  { files := fun s d => if s = "srv" ∧ d = "D" then [g0, gMatch, g2] else []
    lastUpdated := fun _ _ => none
    meta := fun _ _ => none }

/-- Witness for `increment_download_count_spec`: only the first of the two
records sharing the target path is bumped; the no-match case leaves the list
unchanged. -/
theorem increment_download_count_spec_witness :
    (incrementDownloadCount stW10 "srv" "D" "\\D\\b-release.apk" 7).files "srv" "D" =
      [g0] ++ { gMatch with download_time := gMatch.download_time + 1 } :: [g2] ∧
    (incrementDownloadCount stW10 "srv" "D" "\\D\\zzz.apk" 7).files "srv" "D" =
      stW10.files "srv" "D" :=
  ⟨(increment_download_count_spec stW10 "srv" "D" "\\D\\b-release.apk" 7).1
      [g0] gMatch [g2] (by decide) (by decide) (by decide),
   (increment_download_count_spec stW10 "srv" "D" "\\D\\zzz.apk" 7).2.1 (by decide)⟩

/-- C9 amended: the catalog side effects of a successful download resolution
are exactly one `increment_download_count` call on the key derived from the
path (performed at resolution time, before streaming, and never raising);
the download path never computes or persists a content hash — the `md5`
field of every stored record, in every directory, is unchanged
(`update_file_md5` is dead code: the server never invokes it). -/
theorem download_effects_spec (st : Store) (server path : String) (now : Nat) :
    (downloadResolvedEffects st server path now).files server
        (extractDownloadDirectory path) =
      incFirst (st.files server (extractDownloadDirectory path)) path ∧
    (∀ s d, ((downloadResolvedEffects st server path now).files s d).map
        (fun f => f.md5) = (st.files s d).map (fun f => f.md5)) ∧
    (∀ s d, ¬(s = server ∧ d = extractDownloadDirectory path) →
      (downloadResolvedEffects st server path now).files s d = st.files s d) ∧
    (downloadResolvedEffects st server path now).meta = st.meta := by
  refine ⟨?_, ?_, ?_, rfl⟩
  · simp only [downloadResolvedEffects, incrementDownloadCount, setApkFiles,
      getApkFiles]
    rw [if_pos (by simp)]
  · intro s d
    by_cases h : s = server ∧ d = extractDownloadDirectory path
    · rcases h with ⟨h1, h2⟩
      subst h1
      subst h2
      simp only [downloadResolvedEffects, incrementDownloadCount, setApkFiles,
        getApkFiles]
      rw [if_pos (by simp), incFirst_map_md5]
    · simp only [downloadResolvedEffects, incrementDownloadCount, setApkFiles,
        getApkFiles]
      rw [if_neg h]
  · intro s d h
    simp only [downloadResolvedEffects, incrementDownloadCount, setApkFiles,
      getApkFiles]
    rw [if_neg h]

/-- Witness for `download_effects_spec` at a concrete store and path. -/
theorem download_effects_spec_witness :
    (downloadResolvedEffects stW10 "srv" "\\D\\a.apk" 7).files "srv"
        (extractDownloadDirectory "\\D\\a.apk") =
      incFirst (stW10.files "srv" (extractDownloadDirectory "\\D\\a.apk")) "\\D\\a.apk" ∧
    (downloadResolvedEffects stW10 "srv" "\\D\\a.apk" 7).files "other" "D" =
      stW10.files "other" "D" :=
  ⟨(download_effects_spec stW10 "srv" "\\D\\a.apk" 7).1,
   (download_effects_spec stW10 "srv" "\\D\\a.apk" 7).2.2.1 "other" "D"
     (by decide)⟩

/-- The record used to refute C9 as stated: `md5` starts absent. -/
def recC9 : APKFile :=
  { relative_path := "\\AppA\\tool-debug.apk", file_name := "tool-debug.apk",
    file_size := 4, created_time := 2, server_pfx := "p", build_type := "debug",
    download_time := 0, md5 := none }

/-- A store holding `recC9` under `("srv", "AppA")`. -/
def stC9 : Store :=
  { files := fun s d => if s = "srv" ∧ d = "AppA" then [recC9] else []
    lastUpdated := fun _ _ => none
    meta := fun _ _ => none }

/-- C9 counterexample: after a download of `\AppA\tool-debug.apk` that reads
the full file (not a range) to completion, the claim requires `content_hash`
to be computed and persisted on the matching record; but the endpoint's only
catalog effect is the counter bump — the stored record's `md5` is still
`none` while its `download_time` did become 1, so the hash was not persisted
despite a completed full-file read. -/
theorem download_md5_never_persisted_counterexample :
    ((downloadResolvedEffects stC9 "srv" "\\AppA\\tool-debug.apk" 7).files
        "srv" "AppA").map (fun f => f.md5) = [none] ∧
    ((downloadResolvedEffects stC9 "srv" "\\AppA\\tool-debug.apk" 7).files
        "srv" "AppA").map (fun f => f.download_time) = [1] := by
  refine ⟨by decide, by decide⟩

/-- C4: for a fixed catalog snapshot and fixed keyword/build filter, the
returned `total` equals the size of the full filtered set for every
`limit`/`offset` (hence is independent of them); the returned page is the
`[offset, offset+limit)` slice of the filtered list sorted stably by
`created_time` descending; the sorted list is a permutation of the filtered
list (no duplicates, no omissions); and concatenating the pages at offsets
`0, limit, 2·limit, …` (enough pages to cover the filtered set) reconstructs
the entire sorted filtered list. -/
theorem search_pagination_spec (all_files : List APKFile)
    (keyword build_type : String) (limit offset n : Nat)
    (hn : (filterFiles all_files keyword build_type).length ≤ n * limit) :
    (searchCore all_files keyword build_type limit offset).2 =
      (filterFiles all_files keyword build_type).length ∧
    (searchCore all_files keyword build_type limit offset).1 =
      ((sortByCreatedDesc (filterFiles all_files keyword build_type)).drop
        offset).take limit ∧
    (sortByCreatedDesc (filterFiles all_files keyword build_type)).Pairwise
      (fun a b => b.created_time ≤ a.created_time) ∧
    (sortByCreatedDesc (filterFiles all_files keyword build_type)).Perm
      (filterFiles all_files keyword build_type) ∧
    ((List.range n).map
        (fun i =>
          (searchCore all_files keyword build_type limit (i * limit)).1)).flatten =
      sortByCreatedDesc (filterFiles all_files keyword build_type) := by
  refine ⟨rfl, rfl, ?_, ?_, ?_⟩
  · have hs := @List.sorted_mergeSort APKFile
      (fun a b : APKFile => decide (b.created_time ≤ a.created_time))
      (fun a b c hab hbc => decide_eq_true
        (Nat.le_trans (of_decide_eq_true hbc) (of_decide_eq_true hab)))
      (fun a b => by
        rcases Nat.le_total b.created_time a.created_time with h | h
        · simp [h]
        · simp [h])
      (filterFiles all_files keyword build_type)
    exact hs.imp (fun h => of_decide_eq_true h)
  · exact List.mergeSort_perm _ _
  · have hpages : ((List.range n).map
        (fun i =>
          (searchCore all_files keyword build_type limit (i * limit)).1)) =
        (List.range n).map (fun i =>
          ((sortByCreatedDesc (filterFiles all_files keyword build_type)).drop
            (i * limit)).take limit) := rfl
    rw [hpages]
    apply flatten_chunks
    simp only [sortByCreatedDesc, List.length_mergeSort]
    exact hn

/-- Records for the pagination witness (distinct creation times). -/
def fW1 : APKFile :=
  { relative_path := "\\A\\app-one.apk", file_name := "app-one.apk",
    file_size := 1, created_time := 5, server_pfx := "p", build_type := "unknown" }

def fW2 : APKFile :=
  { relative_path := "\\A\\app-two.apk", file_name := "app-two.apk",
    file_size := 2, created_time := 9, server_pfx := "p", build_type := "unknown" }

/-- Witness for `search_pagination_spec` at a two-record snapshot with
`limit = 1` and two pages. -/
theorem search_pagination_spec_witness :
    (searchCore [fW1, fW2] "app" "combine" 1 0).2 =
      (filterFiles [fW1, fW2] "app" "combine").length ∧
    ((List.range 2).map
        (fun i => (searchCore [fW1, fW2] "app" "combine" 1 (i * 1)).1)).flatten =
      sortByCreatedDesc (filterFiles [fW1, fW2] "app" "combine") :=
  ⟨(search_pagination_spec [fW1, fW2] "app" "combine" 1 0 2 (by decide)).1,
   (search_pagination_spec [fW1, fW2] "app" "combine" 1 0 2 (by decide)).2.2.2.2⟩

/-- C8 amended: for a single range header `bytes=start-end` against a file of
known, positive size `N`: a valid range (`start ≤ end`, `start < N`,
`end < N`) yields status 206 with `Content-Range: bytes start-end/N`,
`Content-Length = end - start + 1`, and a body of exactly the inclusive byte
slice `[start, end]` (whose length is `end - start + 1`); an omitted `end`
defaults to `N - 1`; a range with `start` or `end` beyond the file or
`start > end` yields status 416 with `Content-Range: bytes */N` and no body.
A range request against a file of *unknown* size is ignored entirely: the
endpoint never enters the range branch and streams the full file from byte 0
as a status-200 chunked response (no bytes are skipped). -/
theorem download_range_spec (file : List Nat) (s e : Nat)
    (hpos : 0 < file.length) :
    (s ≤ e → e < file.length →
      downloadFile file true (some (some s, some e)) =
        { status := 206, contentLength := some (e - s + 1),
          contentRange := some (contentRangeStr s e file.length),
          body := (file.drop s).take (e - s + 1) } ∧
      ((file.drop s).take (e - s + 1)).length = e - s + 1) ∧
    (s < file.length →
      downloadFile file true (some (some s, none)) =
        { status := 206, contentLength := some (file.length - 1 - s + 1),
          contentRange := some (contentRangeStr s (file.length - 1) file.length),
          body := (file.drop s).take (file.length - 1 - s + 1) }) ∧
    ((file.length ≤ s ∨ file.length ≤ e ∨ e < s) →
      downloadFile file true (some (some s, some e)) =
        { status := 416, contentLength := none,
          contentRange := some ("bytes */" ++ toString file.length),
          body := [] }) ∧
    downloadFile file false (some (some s, some e)) =
      fullDownloadResult file false := by
  refine ⟨?_, ?_, ?_, ?_⟩
  · intro h1 h2
    constructor
    · simp only [downloadFile]
      rw [if_pos ⟨trivial, hpos⟩]
      rw [if_neg (by simp only [Option.getD_some]; omega)]
      simp only [Option.getD_some]
    · rw [List.length_take, List.length_drop]
      omega
  · intro h1
    simp only [downloadFile]
    rw [if_pos ⟨trivial, hpos⟩]
    rw [if_neg (by simp only [Option.getD_some, Option.getD_none]; omega)]
    simp only [Option.getD_some, Option.getD_none]
  · intro h1
    simp only [downloadFile]
    rw [if_pos ⟨trivial, hpos⟩]
    rw [if_pos (by simp only [Option.getD_some]; omega)]
  · simp only [downloadFile]
    rw [if_neg (by simp)]

/-- Witness for `download_range_spec` on a 12-byte file: the valid range
`bytes=10-11`, the omitted-end range `bytes=10-`, and the invalid range
`bytes=20-30`. -/
theorem download_range_spec_witness :
    downloadFile (List.range 12) true (some (some 10, some 11)) =
      { status := 206, contentLength := some 2,
        contentRange := some (contentRangeStr 10 11 12),
        body := ((List.range 12).drop 10).take 2 } ∧
    downloadFile (List.range 12) true (some (some 10, none)) =
      { status := 206, contentLength := some 2,
        contentRange := some (contentRangeStr 10 11 12),
        body := ((List.range 12).drop 10).take 2 } ∧
    downloadFile (List.range 12) true (some (some 20, some 30)) =
      { status := 416, contentLength := none,
        contentRange := some ("bytes */" ++ toString 12), body := [] } :=
  ⟨((download_range_spec (List.range 12) 10 11 (by decide)).1 (by decide)
      (by decide)).1,
   (download_range_spec (List.range 12) 10 11 (by decide)).2.1 (by decide),
   (download_range_spec (List.range 12) 20 30 (by decide)).2.2.1
      (by decide)⟩

/-- C8 counterexample (the unknown-size clause): a range request
`bytes=10-11` against a 12-byte file whose size could not be determined is
answered with the *entire* file from byte 0 (status 200, no headers set) —
the bytes before `start` are not skipped, contradicting the claimed
full-stream-with-skip degradation whose body would be the file with its
first 10 bytes discarded. -/
theorem download_unknown_size_counterexample :
    downloadFile (List.range 12) false (some (some 10, some 11)) =
      { status := 200, contentLength := none, contentRange := none,
        body := List.range 12 } ∧
    (List.range 12) ≠ (List.range 12).drop 10 := by
  refine ⟨by decide, by decide⟩

/-- C6: a force scan first resets every listed directory's cached
subdirectory count to the `-1` sentinel for the target scope and then runs
the normal scan algorithm, so every directory in scope is fully re-walked
regardless of its previous cached count: for a single-share force scan every
top-level directory of that share ends up in the walked list, and for a
force scan of all shares (with no scan already in progress) every
`(share, directory)` pair in scope ends up in the walked list. -/
theorem forceScan_rewalks_every_directory (shares : List Share) (sh : Share)
    (st : Store) (now : Nat) (hsh : sh ∈ shares) :
    (∀ d ∈ listDirectories sh.root, d ∈ (forceScanServer sh st now).2) ∧
    (∀ d ∈ listDirectories sh.root,
      (sh.name, d) ∈ (forceScanAll shares false st now).2.2) := by
  constructor
  · intro d hd
    show d ∈ ((listDirectories sh.root).foldl
      (scanDirStep sh.root sh.path sh.name now) (resetShareMeta sh st, [])).2
    exact scanDirStep_fold_walks sh.root sh.path sh.name now
      (listDirectories sh.root) (resetShareMeta sh st, []) d hd
      (resetShareMeta_cached sh st d hd)
  · intro d hd
    show (sh.name, d) ∈ (shares.foldl (scanShareStep now)
      (shares.foldl (fun s2 sh2 => resetShareMeta sh2 s2) st, [])).2
    exact scanShareStep_fold_walks now shares
      (shares.foldl (fun s2 sh2 => resetShareMeta sh2 s2) st, []) sh d hsh hd
      (Or.inl (resetAllFold_cached shares st sh hsh d hd))

/-- The share used by the force-scan witness. -/
def shW : Share := { name := "srv", path := "\\\\h\\s", root := rootW }

/-- Witness for `forceScan_rewalks_every_directory`: directory `D` of share
`srv` is re-walked both by the single-share and the all-shares force scan. -/
theorem forceScan_rewalks_every_directory_witness :
    "D" ∈ (forceScanServer shW stMatch 7).2 ∧
    ("srv", "D") ∈ (forceScanAll [shW] false stMatch 7).2.2 :=
  ⟨(forceScan_rewalks_every_directory [shW] shW stMatch 7
      (List.mem_singleton_self shW)).1 "D" (by decide),
   (forceScan_rewalks_every_directory [shW] shW stMatch 7
      (List.mem_singleton_self shW)).2 "D" (by decide)⟩

/-- C1 failing input: the remote directory `AppA` is unchanged since the
record was catalogued. -/
def rootC1 : List FSEntry := [.dir "AppA" [.file "app-release.apk" 500000 5]]

/-- The pre-rescan record: one completed download and a stored hash. -/
def recC1 : APKFile :=
  { relative_path := "\\AppA\\app-release.apk", file_name := "app-release.apk",
    file_size := 500000, created_time := 5, server_pfx := "\\\\srv\\apks",
    build_type := "release", download_time := 1, md5 := some "abc" }

/-- Catalog state before the rescan: the record list holds `recC1` and the
directory's cached count is the force-rescan sentinel, so the next scan of
`AppA` re-walks it even though the remote contents are unchanged. -/
def stC1 : Store :=
  { files := fun s d => if s = "srv" ∧ d = "AppA" then [recC1] else []
    lastUpdated := fun _ _ => some 3
    meta := fun s d =>
      if s = "srv" ∧ d = "AppA" then some { subdir_count := -1 } else none }

/-- C1: rescanning `AppA` with the remote contents unchanged does NOT merge
by `relative_path` — `set_apk_files` overwrites the record list wholesale
with freshly built records, so the accumulated `download_time = 1` and
`md5 = some "abc"` of the existing record (same `relative_path`) are reset
to `0` and `none`.  This exhibits the code contradicting the claim's (and
the spec's) required merge-by-path preservation. -/
theorem rescan_overwrites_counters :
    stC1.files "srv" "AppA" = [recC1] ∧
    recC1.download_time = 1 ∧ recC1.md5 = some "abc" ∧
    ((scanDirectory rootC1 "\\\\srv\\apks" stC1 "srv" "AppA" 9).1).files
        "srv" "AppA" =
      [{ recC1 with download_time := 0, md5 := none }] := by
  refine ⟨by decide, rfl, rfl, ?_⟩
  unfold scanDirectory
  rw [if_neg (by decide)]
  simp only [setDirectoryMeta, setApkFiles]
  rw [if_pos (by simp)]
  simp [scanApkFiles, subdirChildren, rootC1, scanEntry, joinPath, isApkFile]
  decide
